import Mathlib

/-!
Verification of the PSI (Pipe Stress Infinity) core against its source.

The development shallowly embeds the parts of the code that the checked
properties speak about:

* `psi/solvers/codecheck.py` — the `element_codecheck` routine: the
  zero-allowable ratio guard, the load-combination accumulation loop, the
  combination-method dispatch, the stress-type override loop for allowables,
  and the worst-case update of the shared result matrix `S`.
* `psi/entity.py` / `psi/model.py` — entity creation (`Entity.__new__` /
  `Entity.__init__`), the model registry with its active model, and
  container deletion including the method-resolution-order effects on
  `ModelContainer.delete`.
* `psi/sifs.py` — SIF construction and its (intended) topology validation.

Stresses, forces and factors are modelled as rationals; Python exceptions
are modelled with an explicit error type and `Except`/`Option` results.
-/

namespace PSI

/-! ## Python exceptions

The exceptions the embedded code can raise.  `identityError` and
`validationError` come from the specification's error taxonomy; the source
never defines nor raises them, and they are included only so that claims
stated in terms of them can be expressed (and compared with what the code
actually raises). -/

inductive PyError where
  | nameError
  | assertionError
  | attributeError
  | typeError
  | identityError
  | validationError
deriving DecidableEq, Repr

/-! ## codecheck.py: the zero-allowable ratio guard

Lines 74-79 (primary `LoadCase` path) and 260-265 (`LoadComb` path) are the
same code:

    try:
        sratioi = sli / sallowi     # code ratio at node i
        sratioj = slj / sallowj     # code ratio at node j
    except ZeroDivisionError:
        sratioi = 0
        sratioj = 0

If either divisor is exactly zero the `ZeroDivisionError` handler assigns
zero to *both* ratios (a fault on the second division discards the already
computed first ratio). -/

def stressRatios (sli slj sallowi sallowj : ℚ) : ℚ × ℚ :=
  if sallowi = 0 ∨ sallowj = 0 then (0, 0)
  else (sli / sallowi, slj / sallowj)

/-! ## codecheck.py: worst-case accumulation into the result matrix `S`

Lines 267-275:

    if sratioi > S[idxi, -1]:
        S[idxi, :10] = (shoop, saxi, stori, slp, slbi, sli,
                        sifi, sifo, sallowi, sratioi)

A row of `S` holds the nine stress columns and, last, the stress ratio; an
`evaluate` call touching the row either overwrites the whole row (when its
new ratio strictly exceeds the stored one) or leaves it untouched.  A call
touching a fixed point is therefore a candidate row, and a sequence of
calls is a left fold of the update over the candidate rows. -/

structure SRow where
  /-- columns 0..8: hoop, axial, torsional, pressure-longitudinal, bending,
  longitudinal, SIF-in, SIF-out, allowable -/
  cols : List ℚ
  /-- column 9: the stress ratio -/
  ratio : ℚ
deriving DecidableEq, Repr

def updateRow (r c : SRow) : SRow :=
  if c.ratio > r.ratio then c else r

def runCalls (r : SRow) (cs : List SRow) : SRow :=
  cs.foldl updateRow r

/-! ## codecheck.py: LoadComb accumulation loop (lines 86-114)

Each constituent load case contributes ten per-node stress quantities,
computed by the external code-formula functions; they are modelled as a
record of given rationals. -/

structure CaseStresses where
  shoop : ℚ
  slp : ℚ
  saxi : ℚ
  saxj : ℚ
  stori : ℚ
  storj : ℚ
  slbi : ℚ
  slbj : ℚ
  sli : ℚ
  slj : ℚ
deriving DecidableEq, Repr, Inhabited

/-- `zip_longest(loadcomb.factors, loadcomb.loadcases, fillvalue=1)` (lines
90-92), for the runs the code supports: when the factor list is shorter the
missing factors are filled with `1`.  (When the load-case list is the
shorter one, Python would pair the extra factors with the fill value `1`
and crash on `1 .forces`; that side of `zip_longest` is outside the
embedding's domain and theorems assume `factors.length ≤ cases.length`.) -/
def zipFill : List ℚ → List CaseStresses → List (ℚ × CaseStresses)
  | _, [] => []
  | [], c :: cs => ((1 : ℚ), c) :: zipFill [] cs
  | f :: fs, c :: cs => (f, c) :: zipFill fs cs

/-- The per-quantity parallel lists built by the loop of lines 90-114.
Every quantity is appended scaled by the constituent's factor except the
total longitudinal stresses `sli`/`slj`, which lines 111-114 append
without applying the factor. -/
structure CombLists where
  shoopL : List ℚ
  slpL : List ℚ
  saxiL : List ℚ
  saxjL : List ℚ
  storiL : List ℚ
  storjL : List ℚ
  slbiL : List ℚ
  slbjL : List ℚ
  sliL : List ℚ
  sljL : List ℚ
deriving DecidableEq, Repr

def combLists (factors : List ℚ) (cases : List CaseStresses) : CombLists :=
  let pairs := zipFill factors cases
  { shoopL := pairs.map (fun p => p.1 * p.2.shoop)
    slpL := pairs.map (fun p => p.1 * p.2.slp)
    saxiL := pairs.map (fun p => p.1 * p.2.saxi)
    saxjL := pairs.map (fun p => p.1 * p.2.saxj)
    storiL := pairs.map (fun p => p.1 * p.2.stori)
    storjL := pairs.map (fun p => p.1 * p.2.storj)
    slbiL := pairs.map (fun p => p.1 * p.2.slbi)
    slbjL := pairs.map (fun p => p.1 * p.2.slbj)
    sliL := pairs.map (fun p => p.2.sli)
    sljL := pairs.map (fun p => p.2.slj) }

/-! ## codecheck.py: combination-method dispatch (lines 116-235)

The `algebraic` branch discards the per-constituent axial/torsional/
bending/longitudinal values and recomputes them from the combination's own
pre-combined force vector through the external code formulas; those
recomputed values enter the embedding as a given record. -/

structure AlgRecompute where
  saxi : ℚ
  saxj : ℚ
  stori : ℚ
  storj : ℚ
  slbi : ℚ
  slbj : ℚ
  sli : ℚ
  slj : ℚ
deriving DecidableEq, Repr

/-- The ten combined quantities.  For the `srss` method these are the
pre-square-root sums of squares of lines 157-170; lines 221-235 then apply
`math.sqrt` to each of them, which the theorems express with `Real.sqrt`. -/
structure Combined where
  shoop : ℚ
  slp : ℚ
  saxi : ℚ
  saxj : ℚ
  stori : ℚ
  storj : ℚ
  slbi : ℚ
  slbj : ℚ
  sli : ℚ
  slj : ℚ
deriving DecidableEq, Repr

/-- Python `max(list)`: raises `ValueError` on an empty list, otherwise
folds binary `max` over the elements. -/
def pymax : List ℚ → Option ℚ
  | [] => none
  | x :: xs => some (xs.foldl max x)

/-- Python `min(list)`: raises `ValueError` on an empty list, otherwise
folds binary `min` over the elements. -/
def pymin : List ℚ → Option ℚ
  | [] => none
  | x :: xs => some (xs.foldl min x)

/-- The `if/elif` chain on `loadcomb.method` (lines 116-218).  The method
string the sum branch matches is spelled `"scaler"` in the source.  A
method matching no branch leaves all ten quantities unassigned and the
later `sratioi = sli / sallowi` raises `UnboundLocalError`: the evaluation
fails, modelled as `none`.  `max()`/`min()` on an empty Python list raise
`ValueError`, hence the `signmax`/`signmin` branches are also `none` on an
empty constituent list. -/
def methodCombine (method : String) (alg : AlgRecompute) (L : CombLists) :
    Option Combined :=
  if method = "scaler" then
    some ⟨L.shoopL.sum, L.slpL.sum, L.saxiL.sum, L.saxjL.sum, L.storiL.sum,
          L.storjL.sum, L.slbiL.sum, L.slbjL.sum, L.sliL.sum, L.sljL.sum⟩
  else if method = "algebraic" then
    some ⟨L.shoopL.sum, L.slpL.sum, alg.saxi, alg.saxj, alg.stori, alg.storj,
          alg.slbi, alg.slbj, alg.sli, alg.slj⟩
  else if method = "srss" then
    some ⟨(L.shoopL.map (fun s => s ^ 2)).sum, (L.slpL.map (fun s => s ^ 2)).sum,
          (L.saxiL.map (fun s => s ^ 2)).sum, (L.saxjL.map (fun s => s ^ 2)).sum,
          (L.storiL.map (fun s => s ^ 2)).sum, (L.storjL.map (fun s => s ^ 2)).sum,
          (L.slbiL.map (fun s => s ^ 2)).sum, (L.slbjL.map (fun s => s ^ 2)).sum,
          (L.sliL.map (fun s => s ^ 2)).sum, (L.sljL.map (fun s => s ^ 2)).sum⟩
  else if method = "abs" then
    some ⟨(L.shoopL.map (fun s => |s|)).sum, (L.slpL.map (fun s => |s|)).sum,
          (L.saxiL.map (fun s => |s|)).sum, (L.saxjL.map (fun s => |s|)).sum,
          (L.storiL.map (fun s => |s|)).sum, (L.storjL.map (fun s => |s|)).sum,
          (L.slbiL.map (fun s => |s|)).sum, (L.slbjL.map (fun s => |s|)).sum,
          (L.sliL.map (fun s => |s|)).sum, (L.sljL.map (fun s => |s|)).sum⟩
  else if method = "signmax" then
    match pymax L.shoopL, pymax L.slpL, pymax L.saxiL, pymax L.saxjL,
          pymax L.storiL, pymax L.storjL, pymax L.slbiL, pymax L.slbjL,
          pymax L.sliL, pymax L.sljL with
    | some a, some b, some c, some d, some e, some f, some g, some h,
      some i, some j => some ⟨a, b, c, d, e, f, g, h, i, j⟩
    | _, _, _, _, _, _, _, _, _, _ => none
  else if method = "signmin" then
    match pymin L.shoopL, pymin L.slpL, pymin L.saxiL, pymin L.saxjL,
          pymin L.storiL, pymin L.storjL, pymin L.slbiL, pymin L.slbjL,
          pymin L.sliL, pymin L.sljL with
    | some a, some b, some c, some d, some e, some f, some g, some h,
      some i, some j => some ⟨a, b, c, d, e, f, g, h, i, j⟩
    | _, _, _, _, _, _, _, _, _, _ => none
  else none

/-! ## codecheck.py: LoadComb allowable loop (lines 237-258)

    for loadcase in loadcomb.loadcases:
        stype = loadcase.stype              # save type
        loadcase.stype = loadcomb.stype     # change to loadcomb type
        ...
        sallowi = element.code.sallow(element, loadcase, fori)
        sallowi_list.append(sallowi)
        sallowj = element.code.sallow(element, loadcase, forj)
        sallowj_list.append(sallowj)
        # revert to loadcase stype
        loadcase.stype = stype
    sallowi = min(sallowi_list)
    sallowj = min(sallowj_list)

There is no `try/finally` around the body: when a `sallow` call raises, the
loop aborts with the current load case's `stype` still set to the
combination's type.  A constituent load case is modelled by its original
`stype` string and by its two allowables as functions of the `stype` in
effect during the call (the `sallow` formula reads `loadcase.stype`); a
raising `sallow` call is `none`.  `allowLoop` returns the final `stype` of
every constituent and, when no call raised, the two accumulated lists. -/

structure LCAllow where
  stype : String
  sallowi : String → Option ℚ
  sallowj : String → Option ℚ

def allowLoop (cst : String) : List LCAllow →
    List String × Option (List ℚ × List ℚ)
  | [] => ([], some ([], []))
  | lc :: rest =>
    match lc.sallowi cst with
    | none => (cst :: rest.map LCAllow.stype, none)
    | some ai =>
      match lc.sallowj cst with
      | none => (cst :: rest.map LCAllow.stype, none)
      | some aj =>
        let r := allowLoop cst rest
        (lc.stype :: r.1, r.2.map (fun p => (ai :: p.1, aj :: p.2)))

/-- `sallowi = min(sallowi_list)` / `sallowj = min(sallowj_list)` (lines
257-258); Python `min` on an empty list raises `ValueError` (`none`). -/
def combAllowables (cst : String) (lcs : List LCAllow) : Option (ℚ × ℚ) :=
  match (allowLoop cst lcs).2 with
  | none => none
  | some (li, lj) =>
    match pymin li, pymin lj with
    | some a, some b => some (a, b)
    | _, _ => none

end PSI

namespace PSI

/-! ## Theorems for claims C2 and C10 (the zero-allowable guard) -/

/-- **C2.** Zero-allowable guard: in `element_codecheck`, in both the primary
`LoadCase` path (lines 74-79) and the `LoadComb` path (lines 260-265),
whenever the allowable stress at a node is exactly zero the stress ratio at
that node is defined as zero, and the result is always defined (the
`ZeroDivisionError` is caught, so no division fault reaches the caller). -/
theorem zero_allowable_guard (sli slj sallowi sallowj : ℚ) :
    (sallowi = 0 → (stressRatios sli slj sallowi sallowj).1 = 0) ∧
    (sallowj = 0 → (stressRatios sli slj sallowi sallowj).2 = 0) := by
  constructor
  · intro hi
    simp [stressRatios, hi]
  · intro hj
    simp [stressRatios, hj]

/-- Witness for `zero_allowable_guard`: at `sli = 5`, `slj = 7`,
`sallowi = 0`, `sallowj = 2` the ratio at node i is zero. -/
theorem zero_allowable_guard_witness :
    (0 : ℚ) = 0 ∧ (stressRatios 5 7 0 2).1 = 0 :=
  ⟨rfl, (zero_allowable_guard 5 7 0 2).1 rfl⟩

/-! ## Theorems for claim C1 (worst-case accumulation) -/

lemma updateRow_ratio (r c : SRow) :
    (updateRow r c).ratio = max r.ratio c.ratio := by
  unfold updateRow
  split
  · rename_i h
    exact (max_eq_right h.le).symm
  · rename_i h
    exact (max_eq_left (not_lt.mp h)).symm

lemma runCalls_cons (r c : SRow) (cs : List SRow) :
    runCalls r (c :: cs) = runCalls (updateRow r c) cs := rfl

lemma runCalls_ratio (r : SRow) (cs : List SRow) :
    (runCalls r cs).ratio = (cs.map SRow.ratio).foldl max r.ratio := by
  induction cs generalizing r with
  | nil => rfl
  | cons c cs ih =>
    rw [runCalls_cons, ih, List.map_cons, List.foldl_cons, updateRow_ratio]

lemma left_le_foldl_max (l : List ℚ) (a : ℚ) : a ≤ l.foldl max a := by
  induction l generalizing a with
  | nil => simp
  | cons x xs ih => exact le_trans (le_max_left a x) (ih (max a x))

lemma mem_le_foldl_max (l : List ℚ) : ∀ (a q : ℚ), q ∈ l → q ≤ l.foldl max a := by
  induction l with
  | nil => intro a q hq; cases hq
  | cons x xs ih =>
    intro a q hq
    rcases List.mem_cons.mp hq with h | h
    · subst h
      exact le_trans (le_max_right a q) (left_le_foldl_max xs (max a q))
    · exact ih (max a x) q h

lemma foldl_max_eq_or_mem (l : List ℚ) (a : ℚ) :
    l.foldl max a = a ∨ l.foldl max a ∈ l := by
  induction l generalizing a with
  | nil => exact Or.inl rfl
  | cons x xs ih =>
    rcases ih (max a x) with h | h
    · rw [List.foldl_cons, h]
      rcases max_choice a x with hm | hm
      · exact Or.inl hm
      · exact Or.inr (by rw [hm]; exact List.mem_cons_self x xs)
    · exact Or.inr (List.mem_cons_of_mem x h)

instance : RightCommutative (max : ℚ → ℚ → ℚ) :=
  ⟨fun b a₁ a₂ => by rw [max_assoc, max_comm a₁, ← max_assoc]⟩

/-- **C1 (amended).** Worst-case accumulation in `S` (lines 267-275): for a
fixed point, running any finite sequence of `evaluate` calls touching it
folds `updateRow` over the call results.  The final stored ratio is an
upper bound of the initially stored ratio and of every call's ratio, and is
attained by one of them — i.e. it equals the maximum of the initial ratio
and all computed ratios (not, as the claim states, the maximum of the
computed ratios alone).  A single call overwrites the row exactly when its
ratio strictly exceeds the stored one.  The final stored *ratio* is
order-independent; the full row need not be (two calls can tie at the
maximal ratio with different stress tuples, see the counterexample). -/
theorem worst_case_accumulation (r : SRow) (cs cs' : List SRow)
    (hp : cs.Perm cs') :
    r.ratio ≤ (runCalls r cs).ratio ∧
    (∀ c ∈ cs, c.ratio ≤ (runCalls r cs).ratio) ∧
    ((runCalls r cs).ratio = r.ratio ∨
      (runCalls r cs).ratio ∈ cs.map SRow.ratio) ∧
    (∀ c, c.ratio > r.ratio → updateRow r c = c) ∧
    (∀ c, ¬ c.ratio > r.ratio → updateRow r c = r) ∧
    (runCalls r cs).ratio = (runCalls r cs').ratio := by
  refine ⟨?_, ?_, ?_, ?_, ?_, ?_⟩
  · rw [runCalls_ratio]
    exact left_le_foldl_max _ _
  · intro c hc
    rw [runCalls_ratio]
    exact mem_le_foldl_max _ _ _ (List.mem_map_of_mem SRow.ratio hc)
  · rw [runCalls_ratio]
    exact foldl_max_eq_or_mem _ _
  · intro c hgt
    simp [updateRow, hgt]
  · intro c hle
    simp [updateRow, hle]
  · rw [runCalls_ratio, runCalls_ratio]
    exact (hp.map SRow.ratio).foldl_eq r.ratio

/-- Witness for `worst_case_accumulation`: one call of ratio `1` on a row
holding ratio `0`, compared against itself (the identity reordering). -/
theorem worst_case_accumulation_witness :
    ([⟨[1], 1⟩] : List SRow).Perm [⟨[1], 1⟩] ∧
    (⟨[0], 0⟩ : SRow).ratio ≤ (runCalls ⟨[0], 0⟩ [⟨[1], 1⟩]).ratio :=
  ⟨List.Perm.refl _,
    (worst_case_accumulation (⟨[0], 0⟩ : SRow) ([⟨[1], 1⟩] : List SRow)
      ([⟨[1], 1⟩] : List SRow) (List.Perm.refl _)).1⟩

/-- Counterexample for claim C1 as stated.  First: two calls with *equal*
ratios but different stress tuples give different final `S` rows under the
two orderings of the same call set, so the final `S` is not
order-independent.  Second: when every call's ratio is below the initially
stored ratio, the stored ratio stays at its initial value (`5`), which is
not the maximum (`3`) of the ratios computed by the calls. -/
theorem worst_case_order_counterexample :
    ([⟨[1], 1⟩, ⟨[2], 1⟩] : List SRow).Perm [⟨[2], 1⟩, ⟨[1], 1⟩] ∧
    runCalls ⟨[0], 0⟩ [⟨[1], 1⟩, ⟨[2], 1⟩] ≠
      runCalls ⟨[0], 0⟩ [⟨[2], 1⟩, ⟨[1], 1⟩] ∧
    runCalls ⟨[], 5⟩ [⟨[9], 3⟩] = ⟨[], 5⟩ ∧
    ([⟨[9], 3⟩] : List SRow).map SRow.ratio = [3] ∧
    (runCalls ⟨[], 5⟩ [⟨[9], 3⟩]).ratio ≠ 3 := by
  refine ⟨List.Perm.swap (⟨[2], 1⟩ : SRow) (⟨[1], 1⟩ : SRow) [], ?_, ?_, ?_, ?_⟩ <;> decide

/-- **C10.** The two end-point ratios are not independent with respect to the
zero-allowable guard: if the allowable at either end point is zero, the
single `except ZeroDivisionError` handler sets *both* ratios to zero,
including the one at the node whose allowable is nonzero. -/
theorem zero_allowable_couples_both_nodes (sli slj sallowi sallowj : ℚ)
    (h : sallowi = 0 ∨ sallowj = 0) :
    stressRatios sli slj sallowi sallowj = (0, 0) := by
  simp [stressRatios, h]

/-- Witness for `zero_allowable_couples_both_nodes`: with `sallowi = 0` but
`sallowj = 2 ≠ 0` and `slj = 7` (so that `slj / sallowj = 7/2 ≠ 0`), both
ratios are still zeroed. -/
theorem zero_allowable_couples_both_nodes_witness :
    ((0 : ℚ) = 0 ∨ (2 : ℚ) = 0) ∧ stressRatios 5 7 0 2 = (0, 0) :=
  ⟨Or.inl rfl, zero_allowable_couples_both_nodes 5 7 0 2 (Or.inl rfl)⟩

/-! ## Theorems for claim C4 (accumulation-loop factor scaling) -/

lemma zipFill_length : ∀ (fs : List ℚ) (cs : List CaseStresses),
    (zipFill fs cs).length = cs.length := by
  intro fs cs
  induction cs generalizing fs with
  | nil => cases fs <;> rfl
  | cons c cs ih => cases fs <;> simp [zipFill, ih]

lemma getD_map_of_lt {α β : Type} (g : α → β) (l : List α) (k : ℕ)
    (d : α) (e : β) (hk : k < l.length) :
    (l.map g).getD k e = g (l.getD k d) := by
  rw [List.getD_eq_getElem?_getD, List.getElem?_map,
    List.getD_eq_getElem?_getD, List.getElem?_eq_getElem hk]
  simp

lemma zipFill_getD : ∀ (fs : List ℚ) (cs : List CaseStresses) (k : ℕ),
    k < cs.length →
    (zipFill fs cs).getD k (1, default) = (fs.getD k 1, cs.getD k default) := by
  intro fs cs
  induction cs generalizing fs with
  | nil => intro k hk; cases hk
  | cons c cs ih =>
    intro k hk
    match fs, k with
    | [], 0 => rfl
    | [], k + 1 =>
      have := ih [] k (Nat.lt_of_succ_lt_succ hk)
      simpa [zipFill] using this
    | f :: fs, 0 => rfl
    | f :: fs, k + 1 =>
      have := ih fs k (Nat.lt_of_succ_lt_succ hk)
      simpa [zipFill] using this

lemma combLists_entry (g : ℚ × CaseStresses → ℚ) (fs : List ℚ)
    (cs : List CaseStresses) (k : ℕ) (hk : k < cs.length) :
    ((zipFill fs cs).map g).getD k 0 = g (fs.getD k 1, cs.getD k default) := by
  rw [getD_map_of_lt g _ k (1, default) 0 (by rw [zipFill_length]; exact hk),
    zipFill_getD fs cs k hk]

/-- **C4 (amended).** In the accumulation loop (lines 90-114), for every
constituent position `k`, the entry appended to each parallel list is the
case-1 quantity multiplied by that constituent's factor — *except* the
total longitudinal stresses, whose entries (lines 111-114) are the case-1
values with no factor applied.  The factor defaults to `1` when the factor
list is shorter than the load-case list (`zip_longest` with `fillvalue=1`):
for positions at or past the end of the factor list, `fs.getD k 1 = 1`. -/
theorem comb_accumulation_scaling (fs : List ℚ) (cs : List CaseStresses)
    (k : ℕ) (hlen : fs.length ≤ cs.length) (hk : k < cs.length) :
    (combLists fs cs).shoopL.getD k 0 = fs.getD k 1 * (cs.getD k default).shoop ∧
    (combLists fs cs).slpL.getD k 0 = fs.getD k 1 * (cs.getD k default).slp ∧
    (combLists fs cs).saxiL.getD k 0 = fs.getD k 1 * (cs.getD k default).saxi ∧
    (combLists fs cs).saxjL.getD k 0 = fs.getD k 1 * (cs.getD k default).saxj ∧
    (combLists fs cs).storiL.getD k 0 = fs.getD k 1 * (cs.getD k default).stori ∧
    (combLists fs cs).storjL.getD k 0 = fs.getD k 1 * (cs.getD k default).storj ∧
    (combLists fs cs).slbiL.getD k 0 = fs.getD k 1 * (cs.getD k default).slbi ∧
    (combLists fs cs).slbjL.getD k 0 = fs.getD k 1 * (cs.getD k default).slbj ∧
    (combLists fs cs).sliL.getD k 0 = (cs.getD k default).sli ∧
    (combLists fs cs).sljL.getD k 0 = (cs.getD k default).slj ∧
    (fs.length ≤ k → fs.getD k 1 = 1) :=
  ⟨combLists_entry _ fs cs k hk, combLists_entry _ fs cs k hk,
   combLists_entry _ fs cs k hk, combLists_entry _ fs cs k hk,
   combLists_entry _ fs cs k hk, combLists_entry _ fs cs k hk,
   combLists_entry _ fs cs k hk, combLists_entry _ fs cs k hk,
   combLists_entry _ fs cs k hk, combLists_entry _ fs cs k hk,
   fun hout => List.getD_eq_default fs 1 hout⟩

/-- Witness for `comb_accumulation_scaling`: an empty factor list against
one constituent, at position `0` — the factor defaults to `1` and the hoop
entry equals `1 * 4 = 4`. -/
theorem comb_accumulation_scaling_witness :
    ([] : List ℚ).length ≤ ([⟨4, 5, 6, 7, 8, 9, 10, 11, 12, 13⟩] :
      List CaseStresses).length ∧
    0 < ([⟨4, 5, 6, 7, 8, 9, 10, 11, 12, 13⟩] : List CaseStresses).length ∧
    (combLists [] [⟨4, 5, 6, 7, 8, 9, 10, 11, 12, 13⟩]).shoopL.getD 0 0 =
      ([] : List ℚ).getD 0 1 *
        (([⟨4, 5, 6, 7, 8, 9, 10, 11, 12, 13⟩] :
          List CaseStresses).getD 0 default).shoop :=
  ⟨by decide, by decide,
    (comb_accumulation_scaling [] [⟨4, 5, 6, 7, 8, 9, 10, 11, 12, 13⟩] 0
      (by decide) (by decide)).1⟩

/-- Counterexample for claim C4 as stated: with factor `2` and a
constituent whose case-1 quantities are all `1`, the hoop list entry is the
scaled `2`, but the total-longitudinal list entry is the unscaled `1` —
not `2 = factor * sl` as the claim asserts for every quantity. -/
theorem comb_sl_not_scaled_counterexample :
    (combLists [2] [⟨1, 1, 1, 1, 1, 1, 1, 1, 1, 1⟩]).shoopL = [2] ∧
    (combLists [2] [⟨1, 1, 1, 1, 1, 1, 1, 1, 1, 1⟩]).sliL = [1] ∧
    (combLists [2] [⟨1, 1, 1, 1, 1, 1, 1, 1, 1, 1⟩]).sljL = [1] ∧
    ([1] : List ℚ) ≠ [2] := by
  refine ⟨?_, ?_, ?_, ?_⟩ <;> norm_num [combLists, zipFill]

/-! ## Theorems for claims C3 (srss) and C5 (scaler / unknown method) -/

lemma methodCombine_srss (alg : AlgRecompute) (L : CombLists) :
    methodCombine "srss" alg L =
      some ⟨(L.shoopL.map (fun s => s ^ 2)).sum, (L.slpL.map (fun s => s ^ 2)).sum,
            (L.saxiL.map (fun s => s ^ 2)).sum, (L.saxjL.map (fun s => s ^ 2)).sum,
            (L.storiL.map (fun s => s ^ 2)).sum, (L.storjL.map (fun s => s ^ 2)).sum,
            (L.slbiL.map (fun s => s ^ 2)).sum, (L.slbjL.map (fun s => s ^ 2)).sum,
            (L.sliL.map (fun s => s ^ 2)).sum, (L.sljL.map (fun s => s ^ 2)).sum⟩ := rfl

lemma methodCombine_scaler (alg : AlgRecompute) (L : CombLists) :
    methodCombine "scaler" alg L =
      some ⟨L.shoopL.sum, L.slpL.sum, L.saxiL.sum, L.saxjL.sum, L.storiL.sum,
            L.storjL.sum, L.slbiL.sum, L.slbjL.sum, L.sliL.sum, L.sljL.sum⟩ := rfl

/-- **C3 (amended).** For the `srss` method (lines 155-170, square root
applied last at lines 221-235): every combined quantity *except the total
longitudinal stress* is the sum of squares of the factor-scaled
per-constituent values; the total longitudinal stress is the sum of
squares of the *unscaled* per-constituent values (its list entries carry
no factor, lines 111-114).  Negating either factor leaves every combined
value unchanged.  With two constituents whose scaled values are `3` and
`4`, the square root of the combined value is `5 = sqrt(3² + 4²)`, not
`7 = |3 + 4|`. -/
theorem srss_combination (f1 f2 : ℚ) (c1 c2 : CaseStresses)
    (alg : AlgRecompute) :
    (∃ pre, methodCombine "srss" alg (combLists [f1, f2] [c1, c2]) = some pre ∧
      pre.shoop = (f1 * c1.shoop) ^ 2 + (f2 * c2.shoop) ^ 2 ∧
      pre.slp = (f1 * c1.slp) ^ 2 + (f2 * c2.slp) ^ 2 ∧
      pre.saxi = (f1 * c1.saxi) ^ 2 + (f2 * c2.saxi) ^ 2 ∧
      pre.saxj = (f1 * c1.saxj) ^ 2 + (f2 * c2.saxj) ^ 2 ∧
      pre.stori = (f1 * c1.stori) ^ 2 + (f2 * c2.stori) ^ 2 ∧
      pre.storj = (f1 * c1.storj) ^ 2 + (f2 * c2.storj) ^ 2 ∧
      pre.slbi = (f1 * c1.slbi) ^ 2 + (f2 * c2.slbi) ^ 2 ∧
      pre.slbj = (f1 * c1.slbj) ^ 2 + (f2 * c2.slbj) ^ 2 ∧
      pre.sli = c1.sli ^ 2 + c2.sli ^ 2 ∧
      pre.slj = c1.slj ^ 2 + c2.slj ^ 2) ∧
    methodCombine "srss" alg (combLists [-f1, f2] [c1, c2]) =
      methodCombine "srss" alg (combLists [f1, f2] [c1, c2]) ∧
    methodCombine "srss" alg (combLists [f1, -f2] [c1, c2]) =
      methodCombine "srss" alg (combLists [f1, f2] [c1, c2]) ∧
    methodCombine "srss" alg
        (combLists [1, 1] [⟨3, 3, 3, 3, 3, 3, 3, 3, 3, 3⟩,
                           ⟨4, 4, 4, 4, 4, 4, 4, 4, 4, 4⟩]) =
      some ⟨25, 25, 25, 25, 25, 25, 25, 25, 25, 25⟩ ∧
    Real.sqrt 25 = 5 ∧ |(3 : ℝ) + 4| = 7 ∧ Real.sqrt 25 ≠ |(3 : ℝ) + 4| := by
  refine ⟨⟨_, methodCombine_srss alg _, ?_, ?_, ?_, ?_, ?_, ?_, ?_, ?_, ?_, ?_⟩,
    ?_, ?_, ?_, ?_, ?_, ?_⟩
  · simp [combLists, zipFill]
  · simp [combLists, zipFill]
  · simp [combLists, zipFill]
  · simp [combLists, zipFill]
  · simp [combLists, zipFill]
  · simp [combLists, zipFill]
  · simp [combLists, zipFill]
  · simp [combLists, zipFill]
  · simp [combLists, zipFill]
  · simp [combLists, zipFill]
  · rw [methodCombine_srss, methodCombine_srss]
    simp only [combLists, zipFill, List.map_cons, List.map_nil,
      Option.some.injEq, Combined.mk.injEq]
    refine ⟨?_, ?_, ?_, ?_, ?_, ?_, ?_, ?_, ?_, ?_⟩ <;> ring
  · rw [methodCombine_srss, methodCombine_srss]
    simp only [combLists, zipFill, List.map_cons, List.map_nil,
      Option.some.injEq, Combined.mk.injEq]
    refine ⟨?_, ?_, ?_, ?_, ?_, ?_, ?_, ?_, ?_, ?_⟩ <;> ring
  · rw [methodCombine_srss]
    simp only [combLists, zipFill, List.map_cons, List.map_nil,
      Option.some.injEq, Combined.mk.injEq]
    norm_num
  · rw [show (25 : ℝ) = 5 ^ 2 by norm_num]
    exact Real.sqrt_sq (by norm_num)
  · norm_num
  · rw [show (25 : ℝ) = 5 ^ 2 by norm_num,
      Real.sqrt_sq (by norm_num : (0 : ℝ) ≤ 5)]
    norm_num

/-- Counterexample for claim C3 as stated: one constituent with factor `2`
and total longitudinal stress `1`.  The claim predicts the combined total
longitudinal stress is `sqrt((2·1)²) = 2`; the code squares the *unscaled*
entry and yields `sqrt(1²) = 1`. -/
theorem srss_sl_counterexample :
    (∃ pre, methodCombine "srss" ⟨0, 0, 0, 0, 0, 0, 0, 0⟩
        (combLists [2] [⟨1, 1, 1, 1, 1, 1, 1, 1, 1, 1⟩]) = some pre ∧
      pre.sli = 1 ∧ pre.shoop = 4) ∧
    Real.sqrt 1 = 1 ∧
    Real.sqrt (((2 : ℝ) * 1) ^ 2) = 2 ∧ (1 : ℝ) ≠ 2 := by
  refine ⟨⟨_, methodCombine_srss _ _, ?_, ?_⟩, Real.sqrt_one, ?_, by norm_num⟩
  · simp [combLists, zipFill]
  · simp [combLists, zipFill]
    norm_num
  · rw [show ((2 : ℝ) * 1) ^ 2 = 2 ^ 2 by norm_num]
    exact Real.sqrt_sq (by norm_num)

/-- **C5 (amended).** The arithmetic-sum combination branch matches the
method string `"scaler"` (line 116), not the spelling `scalar`: for
`"scaler"` every quantity's per-constituent list is combined by `sum`.
Any method string outside the six the chain tests — `"scaler"`,
`"algebraic"`, `"srss"`, `"abs"`, `"signmax"`, `"signmin"` — matches no
branch, so the combined quantities are never assigned and the later ratio
computation raises `UnboundLocalError`: evaluation fails (result `none`)
with no silent fallback.  In particular the spec's spelling `"scalar"` is
itself an unsupported method. -/
theorem scaler_sum_and_unknown_fatal (alg : AlgRecompute) (L : CombLists) :
    methodCombine "scaler" alg L =
      some ⟨L.shoopL.sum, L.slpL.sum, L.saxiL.sum, L.saxjL.sum, L.storiL.sum,
            L.storjL.sum, L.slbiL.sum, L.slbjL.sum, L.sliL.sum, L.sljL.sum⟩ ∧
    (∀ f1 f2 c1 c2, ∃ comb,
      methodCombine "scaler" alg (combLists [f1, f2] [c1, c2]) = some comb ∧
      comb.shoop = f1 * c1.shoop + f2 * c2.shoop ∧
      comb.sli = c1.sli + c2.sli) ∧
    (∀ method,
      method ∉ (["scaler", "algebraic", "srss", "abs", "signmax", "signmin"] :
        List String) →
      methodCombine method alg L = none) := by
  refine ⟨methodCombine_scaler alg L, ?_, ?_⟩
  · intro f1 f2 c1 c2
    refine ⟨_, methodCombine_scaler alg _, ?_, ?_⟩
    · simp [combLists, zipFill]
    · simp [combLists, zipFill]
  · intro method hm
    simp only [List.mem_cons, List.not_mem_nil, or_false, not_or] at hm
    obtain ⟨h1, h2, h3, h4, h5, h6⟩ := hm
    simp [methodCombine, h1, h2, h3, h4, h5, h6]

/-- Witness for `scaler_sum_and_unknown_fatal`: the spelling `"scalar"` is
outside the supported method strings, and evaluating it fails. -/
theorem scaler_sum_and_unknown_fatal_witness :
    ("scalar" ∉ (["scaler", "algebraic", "srss", "abs", "signmax",
      "signmin"] : List String)) ∧
    methodCombine "scalar" ⟨0, 0, 0, 0, 0, 0, 0, 0⟩
      ⟨[1], [1], [1], [1], [1], [1], [1], [1], [1], [1]⟩ = none :=
  ⟨by decide,
    (scaler_sum_and_unknown_fatal ⟨0, 0, 0, 0, 0, 0, 0, 0⟩
      ⟨[1], [1], [1], [1], [1], [1], [1], [1], [1], [1]⟩).2.2 "scalar"
      (by decide)⟩

/-- Counterexample for claim C5 as stated: a `LoadComb` whose method is
`scalar` (the spec's spelling) does not combine by arithmetic sum — it
matches no branch of the chain and the evaluation fails. -/
theorem scalar_method_counterexample :
    methodCombine "scalar" ⟨0, 0, 0, 0, 0, 0, 0, 0⟩
      ⟨[1], [1], [1], [1], [1], [1], [1], [1], [1], [1]⟩ = none ∧
    (none : Option Combined) ≠ some ⟨1, 1, 1, 1, 1, 1, 1, 1, 1, 1⟩ := by
  exact ⟨rfl, by simp⟩

/-! ## Theorems for claim C6 (stype override and minimum allowable) -/

lemma foldl_min_le_left (l : List ℚ) (a : ℚ) : l.foldl min a ≤ a := by
  induction l generalizing a with
  | nil => simp
  | cons x xs ih => exact le_trans (ih (min a x)) (min_le_left a x)

lemma foldl_min_le_mem (l : List ℚ) : ∀ (a q : ℚ), q ∈ l → l.foldl min a ≤ q := by
  induction l with
  | nil => intro a q hq; cases hq
  | cons x xs ih =>
    intro a q hq
    rcases List.mem_cons.mp hq with h | h
    · subst h
      exact le_trans (foldl_min_le_left xs (min a q)) (min_le_right a q)
    · exact ih (min a x) q h

lemma foldl_min_eq_or_mem (l : List ℚ) (a : ℚ) :
    l.foldl min a = a ∨ l.foldl min a ∈ l := by
  induction l generalizing a with
  | nil => exact Or.inl rfl
  | cons x xs ih =>
    rcases ih (min a x) with h | h
    · rw [List.foldl_cons, h]
      rcases min_choice a x with hm | hm
      · exact Or.inl hm
      · exact Or.inr (by rw [hm]; exact List.mem_cons_self x xs)
    · exact Or.inr (List.mem_cons_of_mem x h)

lemma pymin_nonempty (l : List ℚ) (hne : l ≠ []) :
    ∃ m, pymin l = some m ∧ (∀ q ∈ l, m ≤ q) ∧ m ∈ l := by
  match l with
  | [] => exact absurd rfl hne
  | x :: xs =>
    refine ⟨xs.foldl min x, rfl, ?_, ?_⟩
    · intro q hq
      rcases List.mem_cons.mp hq with h | h
      · subst h
        exact foldl_min_le_left xs q
      · exact foldl_min_le_mem xs x q h
    · rcases foldl_min_eq_or_mem xs x with h | h
      · rw [h]
        exact List.mem_cons_self x xs
      · exact List.mem_cons_of_mem x h

lemma allowLoop_success (cst : String) (lcs : List LCAllow)
    (h : ∀ lc ∈ lcs, (lc.sallowi cst).isSome ∧ (lc.sallowj cst).isSome) :
    allowLoop cst lcs =
      (lcs.map LCAllow.stype,
       some (lcs.map (fun lc => (lc.sallowi cst).getD 0),
             lcs.map (fun lc => (lc.sallowj cst).getD 0))) := by
  induction lcs with
  | nil => rfl
  | cons lc rest ih =>
    obtain ⟨hi, hj⟩ := h lc (List.mem_cons_self _ _)
    obtain ⟨ai, hai⟩ := Option.isSome_iff_exists.mp hi
    obtain ⟨aj, haj⟩ := Option.isSome_iff_exists.mp hj
    have ih' := ih (fun x hx => h x (List.mem_cons_of_mem _ hx))
    simp [allowLoop, hai, haj, ih']

/-- **C6 (amended).** The `LoadComb` allowable loop (lines 237-258):
when every `sallow` call succeeds, each constituent's original `stype` is
restored after the loop, the accumulated lists hold each constituent's
allowable computed with the stype overridden to the combination's
`stype`, and the combination's allowable at each node
(`min(sallowi_list)` / `min(sallowj_list)`) is a lower bound of — and is
attained among — the constituents' overridden allowables, i.e. their
minimum.  (Restoration on a *failing* `sallow` call is not guaranteed:
see the counterexample.) -/
theorem comb_allowable_override (cst : String) (lcs : List LCAllow)
    (h : ∀ lc ∈ lcs, (lc.sallowi cst).isSome ∧ (lc.sallowj cst).isSome) :
    (allowLoop cst lcs).1 = lcs.map LCAllow.stype ∧
    (allowLoop cst lcs).2 =
      some (lcs.map (fun lc => (lc.sallowi cst).getD 0),
            lcs.map (fun lc => (lc.sallowj cst).getD 0)) ∧
    (lcs ≠ [] → ∃ a b, combAllowables cst lcs = some (a, b) ∧
      (∀ lc ∈ lcs, a ≤ (lc.sallowi cst).getD 0) ∧
      a ∈ lcs.map (fun lc => (lc.sallowi cst).getD 0) ∧
      (∀ lc ∈ lcs, b ≤ (lc.sallowj cst).getD 0) ∧
      b ∈ lcs.map (fun lc => (lc.sallowj cst).getD 0)) := by
  have hs := allowLoop_success cst lcs h
  refine ⟨by rw [hs], by rw [hs], ?_⟩
  intro hne
  have hlne : lcs.map (fun lc => (lc.sallowi cst).getD 0) ≠ [] := by
    simpa using hne
  have hrne : lcs.map (fun lc => (lc.sallowj cst).getD 0) ≠ [] := by
    simpa using hne
  obtain ⟨a, ha, hale, hamem⟩ :=
    pymin_nonempty (lcs.map (fun lc => (lc.sallowi cst).getD 0)) hlne
  obtain ⟨b, hb, hble, hbmem⟩ :=
    pymin_nonempty (lcs.map (fun lc => (lc.sallowj cst).getD 0)) hrne
  refine ⟨a, b, ?_, ?_, hamem, ?_, hbmem⟩
  · simp [combAllowables, hs, ha, hb]
  · intro lc hlc
    exact hale _ (List.mem_map_of_mem _ hlc)
  · intro lc hlc
    exact hble _ (List.mem_map_of_mem _ hlc)

/-- Witness for `comb_allowable_override`: one constituent of original
stype `"SUS"` whose two allowables under the combination stype `"OCC"`
are `3` and `4`; after the loop its stype is back to `"SUS"`. -/
theorem comb_allowable_override_witness :
    (∀ lc ∈ ([⟨"SUS", fun _ => some 3, fun _ => some 4⟩] : List LCAllow),
      (lc.sallowi "OCC").isSome ∧ (lc.sallowj "OCC").isSome) ∧
    (allowLoop "OCC" [⟨"SUS", fun _ => some 3, fun _ => some 4⟩]).1 =
      ([⟨"SUS", fun _ => some 3, fun _ => some 4⟩] :
        List LCAllow).map LCAllow.stype := by
  have h : ∀ lc ∈ ([⟨"SUS", fun _ => some 3, fun _ => some 4⟩] : List LCAllow),
      (lc.sallowi "OCC").isSome ∧ (lc.sallowj "OCC").isSome := by
    intro lc hlc
    rw [List.mem_singleton] at hlc
    subst hlc
    exact ⟨rfl, rfl⟩
  exact ⟨h, (comb_allowable_override "OCC" _ h).1⟩

/-- Counterexample for claim C6 as stated: there is no `try/finally`
around the stype override (lines 241-256), so when the first `sallow`
call raises, the constituent's stype is left at the combination's type
`"OCC"` instead of being restored to its original `"SUS"`. -/
theorem stype_not_restored_counterexample :
    allowLoop "OCC" [⟨"SUS", fun _ => none, fun _ => none⟩] =
      (["OCC"], none) ∧
    (["OCC"] : List String) ≠
      ([⟨"SUS", fun _ => none, fun _ => none⟩] :
        List LCAllow).map LCAllow.stype := by
  exact ⟨rfl, by decide⟩

/-! ## entity.py / model.py: the active-model registry

`App.__init__` wires one process-wide container per entity kind;
`ModelContainer.activate` rebinds each container's `_objects` dict to the
active model's private dict, so the process-wide container *is* the active
model's container.  The registry state is modelled by the name-keyed list
of models (each with its private store of entity names, here the points)
plus the active-model bookkeeping of `ModelContainer`.

`ModelContainer` derives from `(EntityContainer, ActiveEntityContainerMixin)`
and `EntityContainer.__init__` does not chain to `super().__init__()`, so
`ActiveEntityContainerMixin.__init__` never runs and the `_active_object`
attribute does not exist until `ModelContainer.activate` first assigns it:
reading `active_object` on a fresh app raises `AttributeError`.  The flag
`activeSet` records whether `_active_object` has ever been assigned. -/

structure AppReg where
  models : List (String × List String)
  activeSet : Bool
  active : Option String
deriving DecidableEq, Repr

def lookupModel : List (String × List String) → String → Option (List String)
  | [], _ => none
  | (k, v) :: rest, m => if k = m then some v else lookupModel rest m

def setModel : List (String × List String) → String → List String →
    List (String × List String)
  | [], _, _ => []
  | (k, v) :: rest, m, pts =>
    if k = m then (k, pts) :: rest else (k, v) :: setModel rest m pts

/-- `Model(name)`: `Entity.__new__` skips the active-model check because
`cls is Model` (entity.py line 26), checks the name against
`app.models._objects` and raises `NameError("name '...' in use")` on a
collision (lines 33-35); otherwise `Entity.__init__` registers the model
and `Model.__init__` ends with `self.activate()` (model.py line 89), which
assigns `app.models._active_object` and rebinds the working containers to
the new model's (empty) private dicts. -/
def createModel (r : AppReg) (n : String) : Except PyError AppReg :=
  if (r.models.map Prod.fst).contains n then Except.error PyError.nameError
  else Except.ok ⟨r.models ++ [(n, [])], true, some n⟩

/-- Creation of a non-Model entity registered in the active model's
container (e.g. a `Point`): `Entity.__new__` reads
`app.models.active_object` — `AttributeError` on a fresh app (see above) —
then `assert model is not None` (`AssertionError` when the attribute holds
`None`), then checks the name against the active container and raises
`NameError` on a collision; otherwise `Entity.__init__` registers the
entity under `name` (entity.py lines 16-40). -/
def createEntity (r : AppReg) (n : String) : Except PyError AppReg :=
  if r.activeSet = false then Except.error PyError.attributeError
  else
    match r.active with
    | none => Except.error PyError.assertionError
    | some m =>
      match lookupModel r.models m with
      | none => Except.error PyError.attributeError
      | some pts =>
        if pts.contains n then Except.error PyError.nameError
        else Except.ok ⟨setModel r.models m (pts ++ [n]), r.activeSet, r.active⟩

/-! ## entity.py / model.py: container deletion -/

structure MContainer where
  objects : List (String × Nat)
  activeObject : Option Nat
deriving DecidableEq, Repr

/-- `EntityContainer.delete` (entity.py lines 131-135): scan the ordered
dict and remove the first key whose value is the instance; `_active_object`
is not touched. -/
def entityContainerDelete : List (String × Nat) → Nat → List (String × Nat)
  | [], _ => []
  | (k, v) :: rest, inst =>
    if v = inst then rest else (k, v) :: entityContainerDelete rest inst

/-- `ModelContainer(EntityContainer, ActiveEntityContainerMixin)`: Python's
method resolution order lists `EntityContainer` before the mixin, so
`delete` resolves to `EntityContainer.delete`; the mixin's `delete` (lines
199-203), which clears `_active_object` first — and whose recursive
`self.delete(inst)` call would never terminate if it were dispatched — is
shadowed and never runs.  Deleting a model therefore leaves
`_active_object` unchanged. -/
def modelContainerDelete (c : MContainer) (inst : Nat) : MContainer :=
  ⟨entityContainerDelete c.objects inst, c.activeObject⟩

/-! ## sifs.py: SIF construction and topology predicates -/

structure Vertex where
  edges : ℕ
deriving DecidableEq, Repr

structure PointObj where
  vertex : Vertex
deriving DecidableEq, Repr

/-- `SIF.is_intersection` (sifs.py lines 50-52): a tee type intersection
point has exactly 3 topological edges. -/
def is_intersection (p : PointObj) : Bool := p.vertex.edges == 3

/-- `SIF.is_connection` (sifs.py lines 54-56): a welding connection point
has exactly 2 topological edges. -/
def is_connection (p : PointObj) : Bool := p.vertex.edges == 2

/-- Construction of an `Intersection`-kind SIF (`Welding`, `Unreinforced`,
`Reinforced`, `Weldolet`, `Sockolet`, `Sweepolet`), e.g.
`Welding(element, point, do, tn, dob, rx, tc)`, as the source executes it:

1. `Entity.__new__(cls, name, *args)` receives the *element* in the `name`
   position; if it is not an `int`/`str` (`elementIsName = false`, the
   normal case — elements are `Element` objects), it raises
   `NameError("name must be integer or string")` (entity.py lines 21-22).
2. Otherwise the active-model check runs (`AssertionError` when no model
   is active), then the duplicate-name check against `app.sifs`
   (`NameError` when taken).
3. `SIF.__init__` then calls `super().__init__()` — `Entity.__init__(self,
   name)` with no `name` argument — raising `TypeError` before
   `Intersection.__init__`'s topology assert is ever reached.  (That
   assert, `assert self.intersection()`, itself names a nonexistent
   method — the predicate is `is_intersection` — so it could only raise
   `AttributeError`.)

The point's topology is never consulted; no path returns successfully and
no path raises the spec's `ValidationError`. -/
def constructIntersection (elementIsName modelActive nameInUse : Bool)
    (p : PointObj) : Except PyError Unit :=
  if elementIsName = false then Except.error PyError.nameError
  else if modelActive = false then Except.error PyError.assertionError
  else if nameInUse then Except.error PyError.nameError
  else Except.error PyError.typeError

end PSI

namespace PSI

/-! ## Theorems for claims C7 (entity creation), C8 (SIF validation) and
C9 (deletion and the active selection) -/

/-- **C7 (amended).** Entity creation failures, as the code raises them:
on a fresh app (the active-object attribute never assigned) a non-Model
entity fails with `AttributeError`; with the attribute assigned `None` it
fails with `AssertionError`; a name collision in the active model's
container fails with `NameError` — never with an `IdentityError`, which
the code does not define.  Concretely: creating model `M1` (which
activates it), then `P1`, succeeds; creating `P1` again fails with
`NameError`; creating model `M2` (activating it) and then `P1` again
succeeds, because the working container now aliases `M2`'s private
container. -/
theorem entity_creation_errors :
    (∀ (r : AppReg) (n : String), r.activeSet = false →
      createEntity r n = Except.error PyError.attributeError) ∧
    (∀ (r : AppReg) (n : String), r.activeSet = true → r.active = none →
      createEntity r n = Except.error PyError.assertionError) ∧
    (∀ (r : AppReg) (n m : String) (pts : List String),
      r.activeSet = true → r.active = some m →
      lookupModel r.models m = some pts → pts.contains n = true →
      createEntity r n = Except.error PyError.nameError) ∧
    createModel ⟨[], false, none⟩ "M1" =
      Except.ok ⟨[("M1", [])], true, some "M1"⟩ ∧
    createEntity ⟨[("M1", [])], true, some "M1"⟩ "P1" =
      Except.ok ⟨[("M1", ["P1"])], true, some "M1"⟩ ∧
    createEntity ⟨[("M1", ["P1"])], true, some "M1"⟩ "P1" =
      Except.error PyError.nameError ∧
    createModel ⟨[("M1", ["P1"])], true, some "M1"⟩ "M2" =
      Except.ok ⟨[("M1", ["P1"]), ("M2", [])], true, some "M2"⟩ ∧
    createEntity ⟨[("M1", ["P1"]), ("M2", [])], true, some "M2"⟩ "P1" =
      Except.ok ⟨[("M1", ["P1"]), ("M2", ["P1"])], true, some "M2"⟩ := by
  refine ⟨?_, ?_, ?_, rfl, rfl, rfl, rfl, rfl⟩
  · intro r n h
    simp [createEntity, h]
  · intro r n h1 h2
    simp [createEntity, h1, h2]
  · intro r n m pts h1 h2 h3 h4
    have h5 : n ∈ pts := by simpa using h4
    simp [createEntity, h1, h2, h3, h5]

/-- Witness for `entity_creation_errors`: the duplicate-name branch at the
concrete registry holding `P1` in the active model `M1`. -/
theorem entity_creation_errors_witness :
    (⟨[("M1", ["P1"])], true, some "M1"⟩ : AppReg).activeSet = true ∧
    createEntity ⟨[("M1", ["P1"])], true, some "M1"⟩ "P1" =
      Except.error PyError.nameError :=
  ⟨rfl, entity_creation_errors.2.2.1 ⟨[("M1", ["P1"])], true, some "M1"⟩
    "P1" "M1" ["P1"] rfl rfl rfl rfl⟩

/-- Counterexample for claim C7 as stated: the duplicate-name failure is a
`NameError`, not the `IdentityError` the claim names (no `IdentityError`
exists in the code). -/
theorem identity_error_counterexample :
    createEntity ⟨[("M1", ["P1"])], true, some "M1"⟩ "P1" =
      Except.error PyError.nameError ∧
    createEntity ⟨[("M1", ["P1"])], true, some "M1"⟩ "P1" ≠
      Except.error PyError.identityError := by
  refine ⟨rfl, ?_⟩
  intro hc
  rw [show createEntity ⟨[("M1", ["P1"])], true, some "M1"⟩ "P1" =
    Except.error PyError.nameError from rfl] at hc
  injection hc with h
  cases h

/-- **C8.** SIF construction never performs the claimed topology
validation: for every combination of circumstances, constructing an
`Intersection`-kind SIF fails before `Intersection.__init__`'s assert
(with `NameError`, `AssertionError` or `TypeError`) and never returns
successfully nor raises a `ValidationError`.  At the claim's failing
input — an `Element` object and a point with 2 edges — the failure is the
`NameError` from `Entity.__new__`, even though the topology predicate
`is_intersection` is indeed false there (it holds exactly at 3 edges, and
`is_connection` exactly at 2). -/
theorem sif_construction_never_validates :
    (∀ (e a u : Bool) (p : PointObj),
      constructIntersection e a u p ≠ Except.ok () ∧
      constructIntersection e a u p ≠ Except.error PyError.validationError) ∧
    constructIntersection false true false ⟨⟨2⟩⟩ =
      Except.error PyError.nameError ∧
    is_intersection ⟨⟨2⟩⟩ = false ∧
    is_connection ⟨⟨2⟩⟩ = true ∧
    (∀ p : PointObj, is_intersection p = true ↔ p.vertex.edges = 3) ∧
    (∀ p : PointObj, is_connection p = true ↔ p.vertex.edges = 2) := by
  refine ⟨?_, rfl, rfl, rfl, ?_, ?_⟩
  · intro e a u p
    cases e <;> cases a <;> cases u <;> simp [constructIntersection]
  · intro p
    simp [is_intersection]
  · intro p
    simp [is_connection]

/-- **C9.** Deleting the active model from its `ModelContainer` removes it
from the container but leaves `_active_object` pointing at it: the active
selection does dangle.  (`delete` resolves to `EntityContainer.delete`
through the MRO; the mixin's clearing `delete` is shadowed.) -/
theorem delete_leaves_dangling_active :
    modelContainerDelete ⟨[("mdl1", 0)], some 0⟩ 0 = ⟨[], some 0⟩ ∧
    (modelContainerDelete ⟨[("mdl1", 0)], some 0⟩ 0).activeObject = some 0 ∧
    (modelContainerDelete ⟨[("mdl1", 0)], some 0⟩ 0).objects.map Prod.snd
      = [] := by
  exact ⟨rfl, rfl, rfl⟩

end PSI
